import Mathlib

set_option maxRecDepth 8192

/-!
Verification of the media-ingestion pipeline of the Lighthouse web server.

Shallow embedding of:
  * `src/server/services/r2Client.js` (Railway-client half): `sanitizeSlug`,
    `generateImageKey`, `generateVideoKey`, `uploadToRailway`,
    `deleteFromRailway`, `deleteMultipleFromRailway`;
  * `src/server/services/storage.js`: `localStorage.delete`;
  * `src/server/utils/imageProcessor.js`: `generateContentHash` (MD5 prefix),
    `generateVariants`, `generateBlurPlaceholder`, `processImageForRailway`,
    `processVideoForRailway`;
  * `src/server/config/railway.js`: `VARIANT_SIZES`, `MEDIA_PATHS` (the
    environment-variable defaults `images` / `videos` are used).

Buffers are lists of byte values (`List Nat`, each entry < 256 at the call
sites we evaluate).  The external S3-compatible object store, the `sharp`
image library and the local filesystem are modelled explicitly: an `Env`
records which operations the backend makes fail and which buffers decode as
images, a `World` records the current file and object contents, and every
JavaScript function that performs I/O becomes a state-passing Lean function
over (`Env`, `World`).  A thrown JavaScript error becomes `Except.error`.
-/

/-! ## Slug sanitizer (`r2Client.js` : `sanitizeSlug`) -/

/-- Character class `[a-z0-9]` of the sanitizer's regexes. -/
def isLowerAlnum (c : Char) : Bool :=
  ('a' ≤ c && c ≤ 'z') || ('0' ≤ c && c ≤ '9')

/-- `.replace of regex [^a-z0-9]+ by '-'`: every maximal run of characters outside
`[a-z0-9]` becomes a single hyphen. -/
def replaceNonAlnumRuns : List Char → List Char
  | [] => []
  | [c] => if isLowerAlnum c then [c] else ['-']
  | a :: b :: t =>
    if isLowerAlnum a then a :: replaceNonAlnumRuns (b :: t)
    else if isLowerAlnum b then '-' :: replaceNonAlnumRuns (b :: t)
    else replaceNonAlnumRuns (b :: t)

/-- `.replace of regex -+ by '-'`: every run of hyphens becomes a single hyphen. -/
def collapseHyphens : List Char → List Char
  | [] => []
  | [c] => [c]
  | a :: b :: t =>
    if a = '-' && b = '-' then collapseHyphens (b :: t)
    else a :: collapseHyphens (b :: t)

/-- Leading-hyphen half of `.replace of regex ^-|-$ by the empty string` (the anchored regex with
the `g` flag removes at most one leading and at most one trailing hyphen). -/
def stripLeadingHyphen : List Char → List Char
  | [] => []
  | c :: t => if c = '-' then t else c :: t

/-- Trailing-hyphen half of `.replace of regex ^-|-$ by the empty string`. -/
def stripTrailingHyphen (l : List Char) : List Char :=
  if l.getLast? = some '-' then l.dropLast else l

/-- `sanitizeSlug` on character lists: lowercase, replace non-alphanumeric
runs by `-`, collapse `-` runs, trim one hyphen from each end, then
`.substring(0, 50)`. -/
def sanitizeSlugChars (l : List Char) : List Char :=
  (stripTrailingHyphen (stripLeadingHyphen
    (collapseHyphens (replaceNonAlnumRuns (l.map Char.toLower))))).take 50

/-- `sanitizeSlug` of `r2Client.js` (Railway half), lines 347–354. -/
def sanitizeSlug (s : String) : String :=
  ⟨sanitizeSlugChars s.data⟩

/-- Deterministic finite automaton for the spec's slug regular expression
`^[a-z0-9]+(-[a-z0-9]+)*$`.  `inRun = true` means at least one alphanumeric
character of the current run has been read, so the match may end here or a
hyphen may start a new run. -/
def matchSlugAux (inRun : Bool) : List Char → Bool
  | [] => inRun
  | c :: cs =>
    if isLowerAlnum c then matchSlugAux true cs
    else if c = '-' then (if inRun then matchSlugAux false cs else false)
    else false

/-- Whole-string matcher for `^[a-z0-9]+(-[a-z0-9]+)*$`. -/
def matchesSlugRegex (s : String) : Bool :=
  matchSlugAux false s.data

/-- All characters are lowercase alphanumerics or hyphens. -/
def goodOrHyphen (l : List Char) : Bool :=
  l.all (fun c => isLowerAlnum c || c = '-')

/-- No two adjacent hyphens. -/
def noDoubleHyphen : List Char → Bool
  | a :: b :: t => !(a = '-' && b = '-') && noDoubleHyphen (b :: t)
  | _ => true

/-! ## Content hasher (`imageProcessor.js` : `generateContentHash`)

`crypto.createHash('md5')` is external library code; MD5 itself (RFC 1321)
is embedded below so that the hash is a concrete computable function of the
byte buffer. -/

/-- The 64 MD5 sine-derived constants `K`. -/
def md5K : List Nat :=
  [0xd76aa478, 0xe8c7b756, 0x242070db, 0xc1bdceee,
   0xf57c0faf, 0x4787c62a, 0xa8304613, 0xfd469501,
   0x698098d8, 0x8b44f7af, 0xffff5bb1, 0x895cd7be,
   0x6b901122, 0xfd987193, 0xa679438e, 0x49b40821,
   0xf61e2562, 0xc040b340, 0x265e5a51, 0xe9b6c7aa,
   0xd62f105d, 0x02441453, 0xd8a1e681, 0xe7d3fbc8,
   0x21e1cde6, 0xc33707d6, 0xf4d50d87, 0x455a14ed,
   0xa9e3e905, 0xfcefa3f8, 0x676f02d9, 0x8d2a4c8a,
   0xfffa3942, 0x8771f681, 0x6d9d6122, 0xfde5380c,
   0xa4beea44, 0x4bdecfa9, 0xf6bb4b60, 0xbebfbc70,
   0x289b7ec6, 0xeaa127fa, 0xd4ef3085, 0x04881d05,
   0xd9d4d039, 0xe6db99e5, 0x1fa27cf8, 0xc4ac5665,
   0xf4292244, 0x432aff97, 0xab9423a7, 0xfc93a039,
   0x655b59c3, 0x8f0ccc92, 0xffeff47d, 0x85845dd1,
   0x6fa87e4f, 0xfe2ce6e0, 0xa3014314, 0x4e0811a1,
   0xf7537e82, 0xbd3af235, 0x2ad7d2bb, 0xeb86d391]

/-- The 64 MD5 per-round left-rotation amounts `s`. -/
def md5S : List Nat :=
  [7, 12, 17, 22, 7, 12, 17, 22, 7, 12, 17, 22, 7, 12, 17, 22,
   5,  9, 14, 20, 5,  9, 14, 20, 5,  9, 14, 20, 5,  9, 14, 20,
   4, 11, 16, 23, 4, 11, 16, 23, 4, 11, 16, 23, 4, 11, 16, 23,
   6, 10, 15, 21, 6, 10, 15, 21, 6, 10, 15, 21, 6, 10, 15, 21]

/-- Left rotation of a 32-bit word held as a `Nat` below `2 ^ 32`. -/
def rotl32 (x s : Nat) : Nat :=
  (x * 2 ^ s + x / 2 ^ (32 - s)) % 2 ^ 32

/-- Bitwise complement of a 32-bit word. -/
def not32 (x : Nat) : Nat := Nat.xor x 0xffffffff

/-- MD5 round value `F`, by round quarter `i / 16`. -/
def md5F (i b c d : Nat) : Nat :=
  if i < 16 then Nat.lor (Nat.land b c) (Nat.land (not32 b) d)
  else if i < 32 then Nat.lor (Nat.land d b) (Nat.land (not32 d) c)
  else if i < 48 then Nat.xor (Nat.xor b c) d
  else Nat.xor c (Nat.lor b (not32 d))

/-- MD5 message-word index `g`, by round quarter. -/
def md5G (i : Nat) : Nat :=
  if i < 16 then i
  else if i < 32 then (5 * i + 1) % 16
  else if i < 48 then (3 * i + 5) % 16
  else (7 * i) % 16

/-- One of the 64 MD5 rounds on the state `(a, b, c, d)` with message words
`m`. -/
def md5Round (m : List Nat) (st : Nat × Nat × Nat × Nat) (i : Nat) :
    Nat × Nat × Nat × Nat :=
  let (a, b, c, d) := st
  let f := (md5F i b c d + a + md5K.getD i 0 + m.getD (md5G i) 0) % 2 ^ 32
  (d, (b + rotl32 f (md5S.getD i 0)) % 2 ^ 32, b, c)

/-- Decode a 64-byte chunk into 16 little-endian 32-bit words. -/
def md5Words : List Nat → List Nat
  | b0 :: b1 :: b2 :: b3 :: rest =>
    (b0 + 256 * b1 + 65536 * b2 + 16777216 * b3) :: md5Words rest
  | _ => []

/-- Process one 64-byte chunk, updating the four running state words. -/
def md5Chunk (st : Nat × Nat × Nat × Nat) (chunk : List Nat) :
    Nat × Nat × Nat × Nat :=
  let m := md5Words chunk
  let (a, b, c, d) := (List.range 64).foldl (md5Round m) st
  let (a0, b0, c0, d0) := st
  ((a0 + a) % 2 ^ 32, (b0 + b) % 2 ^ 32, (c0 + c) % 2 ^ 32, (d0 + d) % 2 ^ 32)

/-- Split a list into 64-element chunks; the fuel argument bounds the
number of chunks and is at least the list length at every call site, so the
zero-fuel case is never reached on a non-empty list. -/
def chunks64Go : Nat → List Nat → List (List Nat)
  | _, [] => []
  | 0, _ :: _ => []
  | fuel + 1, a :: t => ((a :: t).take 64) :: chunks64Go fuel ((a :: t).drop 64)

/-- Split a list into 64-element chunks. -/
def chunks64 (l : List Nat) : List (List Nat) :=
  chunks64Go l.length l

/-- MD5 padding: append `0x80`, zero bytes up to 56 mod 64, then the
64-bit little-endian bit length. -/
def md5Pad (msg : List Nat) : List Nat :=
  let len := msg.length
  let zeros := (119 - len % 64) % 64
  let bitLen := (8 * len) % 2 ^ 64
  msg ++ [0x80] ++ List.replicate zeros 0 ++
    (List.range 8).map (fun i => bitLen / 2 ^ (8 * i) % 256)

/-- Little-endian byte serialization of a 32-bit word. -/
def word32Bytes (w : Nat) : List Nat :=
  [w % 256, w / 256 % 256, w / 65536 % 256, w / 16777216 % 256]

/-- Lowercase hexadecimal digit. -/
def hexChar (n : Nat) : Char :=
  "0123456789abcdef".data.getD n '0'

/-- Two-digit lowercase hex of one byte. -/
def byteHex (b : Nat) : List Char :=
  [hexChar (b / 16), hexChar (b % 16)]

/-- Character list of the lowercase-hex MD5 digest of a byte buffer
(RFC 1321). -/
def md5HexChars (msg : List Nat) : List Char :=
  let st := (chunks64 (md5Pad msg)).foldl md5Chunk
    (0x67452301, 0xefcdab89, 0x98badcfe, 0x10325476)
  let (a, b, c, d) := st
  (word32Bytes a ++ word32Bytes b ++ word32Bytes c ++ word32Bytes d).flatMap
    byteHex

/-- Full lowercase-hex MD5 digest of a byte buffer. -/
def md5Hex (msg : List Nat) : String :=
  ⟨md5HexChars msg⟩

/-- `generateContentHash` of `imageProcessor.js`, lines 199–201: the
`.digest('hex').substring(0, 8)` prefix of the MD5 digest of the buffer. -/
def generateContentHash (buffer : List Nat) : String :=
  ⟨(md5HexChars buffer).take 8⟩

/-! ## Key builder (`r2Client.js` : `generateImageKey`, `generateVideoKey`)

`MEDIA_PATHS` of `config/railway.js` resolves to its environment-variable
defaults `images` / `videos`. -/

/-- `MEDIA_PATHS.images` default. -/
def mediaPathsImages : String := "images"

/-- `MEDIA_PATHS.videos` default. -/
def mediaPathsVideos : String := "videos"

/-- `generateImageKey` (`r2Client.js` Railway half, lines 321–324). -/
def generateImageKey (slug hash size : String) : String :=
  mediaPathsImages ++ "/gallery/" ++ sanitizeSlug slug ++ "-" ++ hash ++ "-" ++
    size ++ ".webp"

/-- `generateVideoKey` (`r2Client.js` Railway half, lines 333–336). -/
def generateVideoKey (slug hash : String) : String :=
  mediaPathsVideos ++ "/gallery/" ++ sanitizeSlug slug ++ "-" ++ hash ++ ".mp4"

/-- `VARIANT_SIZES` of `config/railway.js` in `Object.entries` order. -/
def VARIANT_SIZES : List (String × Nat) :=
  [("sm", 400), ("md", 800), ("lg", 1600)]

/-! ## Node `path` helpers used by the orchestrators -/

/-- Split a character list on `/`. -/
def splitOnSlashChars : List Char → List (List Char)
  | [] => [[]]
  | c :: t =>
    if c = '/' then [] :: splitOnSlashChars t
    else
      match splitOnSlashChars t with
      | [] => [[c]]
      | h :: r => (c :: h) :: r

/-- POSIX `path.basename`: the last non-empty path component (trailing
slashes ignored). -/
def basenameJs (p : String) : String :=
  ⟨(((splitOnSlashChars p.data).filter (fun l => !l.isEmpty)).getLast?).getD []⟩

/-- POSIX `path.extname` on the basename's characters: from the last `.`
onward, empty when there is no dot or the only dot is leading. -/
def extnameChars (b : List Char) : List Char :=
  let afterDotRev := b.reverse.takeWhile (fun c => c ≠ '.')
  if afterDotRev.length = b.length then []
  else if afterDotRev.length = b.length - 1 then []
  else '.' :: afterDotRev.reverse

/-- `path.extname p`. -/
def extnameJs (p : String) : String :=
  ⟨extnameChars (basenameJs p).data⟩

/-- `path.basename(p, ext)`: the basename with the suffix `ext` removed when
it is a proper suffix. -/
def basenameStripExt (p ext : String) : String :=
  let b := basenameJs p
  if ext ≠ "" && b ≠ ext && ext.data.isSuffixOf b.data then
    ⟨b.data.take (b.data.length - ext.data.length)⟩
  else b

/-- `path.basename(filename, path.extname(filename))` as used by both
orchestrators. -/
def baseNameNoExt (filename : String) : String :=
  basenameStripExt filename (extnameJs filename)

/-! ## Object store, filesystem and `sharp` model

The AWS S3-compatible client, the `sharp` image library and `fs` are
external to the repository.  `Env` fixes their behaviour for one run:
which keys the backend rejects on put or delete, whether
`getRailwayClient`'s configuration validation throws, and which byte
buffers decode as images (with their native dimensions).  `World` is the
mutable state: local files and stored objects. -/

/-- A thrown JavaScript error. -/
inductive JsErr
  | decodeError
  | enoent (path : String)
  | clientInit
  | putFailed (key : String)
  | deleteFailed (key : String)
deriving DecidableEq, Repr

/-- `err.message` rendering used by `deleteMultipleFromRailway`'s error
entries. -/
def errMessage : JsErr → String
  | .decodeError => "Input buffer contains unsupported image format"
  | .enoent p => "ENOENT: no such file or directory, " ++ p
  | .clientInit => "Railway Buckets configuration incomplete"
  | .putFailed k => "upload failed: " ++ k
  | .deleteFailed k => "delete failed: " ++ k

/-- Fixed behaviour of the external collaborators for one run. -/
structure Env where
  putFailKeys : List String
  deleteFailKeys : List String
  clientInitFails : Bool
  decodeTable : List (List Nat × (Nat × Nat))
deriving DecidableEq, Repr

/-- Mutable state: local files and stored objects, as association lists
from path or key to byte content. -/
structure World where
  files : List (String × List Nat)
  objects : List (String × List Nat)
deriving DecidableEq, Repr

/-- Association-list lookup. -/
def lookupA {α : Type} (l : List (String × α)) (k : String) : Option α :=
  (l.find? (fun p => p.1 == k)).map (fun p => p.2)

/-- Association-list insert-or-replace. -/
def upsertA {α : Type} : List (String × α) → String → α → List (String × α)
  | [], k, v => [(k, v)]
  | (k', v') :: t, k, v =>
    if k' == k then (k, v) :: t else (k', v') :: upsertA t k v

/-- Association-list removal. -/
def removeA {α : Type} (l : List (String × α)) (k : String) :
    List (String × α) :=
  l.filter (fun p => p.1 != k)

/-- `fs.promises.readFile`: `none` models the thrown `ENOENT`. -/
def readFileW (w : World) (p : String) : Option (List Nat) :=
  lookupA w.files p

/-- `fs.promises.unlink` on an existing file. -/
def unlinkW (w : World) (p : String) : World :=
  { w with files := removeA w.files p }

/-- `fs.existsSync`. -/
def fileExistsW (w : World) (p : String) : Bool :=
  (lookupA w.files p).isSome

/-- Lookup of a stored object by key. -/
def storedObject (w : World) (key : String) : Option (List Nat) :=
  lookupA w.objects key

/-- `uploadToRailway` (`r2Client.js` Railway half, lines 205–228): send a
`PutObjectCommand`; on success return the key, on failure re-throw. -/
def uploadToRailway (env : Env) (w : World) (body : List Nat) (key : String)
    (_contentType : String) : Except JsErr (World × String) :=
  if env.clientInitFails then .error .clientInit
  else if key ∈ env.putFailKeys then .error (.putFailed key)
  else .ok ({ w with objects := upsertA w.objects key body }, key)

/-- `deleteFromRailway` (`r2Client.js` Railway half, lines 235–250).
`getRailwayClient()` runs before the `try`, so a configuration failure
escapes; errors from `client.send` are caught and yield `false`.  The AWS
`DeleteObjectCommand` is S3-semantics external code: deleting a key that is
absent succeeds (it does not throw a not-found error). -/
def deleteFromRailway (env : Env) (w : World) (key : String) :
    Except JsErr (World × Bool) :=
  if env.clientInitFails then .error .clientInit
  else if key ∈ env.deleteFailKeys then .ok (w, false)
  else .ok ({ w with objects := removeA w.objects key }, true)

/-- `localStorage.delete` (`storage.js`, lines 61–71): `existsSync` then
`unlink`, returning whether a file was removed.  The file map is keyed by
the web-accessible path; the fixed `path.join(__dirname, '../..', ·)`
prefix is a bijection and is dropped from the model. -/
def localStorageDelete (w : World) (filepath : String) : World × Bool :=
  if fileExistsW w filepath then (unlinkW w filepath, true) else (w, false)

/-- The `results` accumulator of `deleteMultipleFromRailway`. -/
structure DelResults where
  success : Nat
  failed : Nat
  errors : List (String × String)
deriving DecidableEq, Repr

/-- One iteration of `deleteMultipleFromRailway`'s per-key callback. -/
def deleteMultipleStep (env : Env) : World × DelResults → String →
    World × DelResults
  | (w, r), key =>
    match deleteFromRailway env w key with
    | .ok (w', true) => (w', { r with success := r.success + 1 })
    | .ok (w', false) => (w', { r with failed := r.failed + 1 })
    | .error e =>
      (w, { r with failed := r.failed + 1,
                   errors := r.errors ++ [(key, errMessage e)] })

/-- `deleteMultipleFromRailway` (`r2Client.js` Railway half, lines 361–381):
`keys.filter(Boolean)` then one guarded delete per key; the `Promise.all`
is linearized in list order (the counts and entries are order-insensitive).
-/
def deleteMultipleFromRailway (env : Env) (w : World) (keys : List String) :
    World × DelResults :=
  (keys.filter (fun k => k != "")).foldl (deleteMultipleStep env)
    (w, ⟨0, 0, []⟩)

/-! ## Variant generator (`imageProcessor.js` : `generateVariants`,
`generateBlurPlaceholder`) -/

/-- `sharp(buffer).metadata()`: the decode table of `Env` gives the native
`(width, height)` of decodable buffers; other buffers throw. -/
def decodeMeta (env : Env) (buf : List Nat) : Option (Nat × Nat) :=
  (env.decodeTable.find? (fun p => p.1 == buf)).map (fun p => p.2)

/-- One generated variant: encoded bytes plus dimensions after resize. -/
structure Variant where
  buffer : List Nat
  width : Nat
  height : Nat
deriving DecidableEq, Repr

/-- Modelled from the spec: `sharp`'s `resize({width, withoutEnlargement:
true})` followed by `.webp({quality: 85}).toBuffer()` scales to the target
width, preserving aspect ratio with integral height, and never enlarges
beyond the source's native width.  The re-encoded WebP bytes are opaque to
the orchestrator; they are modelled as the resulting width consed onto the
source bytes. -/
def sharpResizeWebp (buf : List Nat) (srcW srcH target : Nat) : Variant :=
  let w := min srcW target
  let h := if srcW ≤ target then srcH else srcH * target / srcW
  { buffer := w :: buf, width := w, height := h }

/-- `generateVariants` (`imageProcessor.js`, lines 228–255): one resized
WebP per entry of `VARIANT_SIZES`, in entry order; an undecodable source
buffer throws. -/
def generateVariants (env : Env) (buf : List Nat) :
    Except JsErr (List (String × Variant)) :=
  match decodeMeta env buf with
  | none => .error .decodeError
  | some (srcW, srcH) =>
    .ok (VARIANT_SIZES.map (fun p => (p.1, sharpResizeWebp buf srcW srcH p.2)))

/-- `generateBlurPlaceholder` (`imageProcessor.js`, lines 209–221): a 16×16
blurred low-quality WebP returned as a `data:` URL; an undecodable buffer
throws.  The base64 payload is opaque to every caller and is modelled as
empty. -/
def generateBlurPlaceholder (env : Env) (buf : List Nat) :
    Except JsErr String :=
  match decodeMeta env buf with
  | none => .error .decodeError
  | some _ => .ok "data:image/webp;base64,"

/-! ## Ingestion orchestrators (`imageProcessor.js` :
`processImageForRailway`, `processVideoForRailway`) -/

/-- The `keys` record stored for an image (or video thumbnail). -/
structure ImageKeys where
  key_sm : String
  key_md : String
  key_lg : String
deriving DecidableEq, Repr

/-- Width and height of one variant. -/
structure Dimensions where
  width : Nat
  height : Nat
deriving DecidableEq, Repr

/-- Successful result of `processImageForRailway`. -/
structure ImageResult where
  filename : String
  keys : ImageKeys
  contentHash : String
  blurData : String
  dims_sm : Dimensions
  dims_md : Dimensions
  dims_lg : Dimensions
deriving DecidableEq, Repr

/-- Successful result of `processVideoForRailway`. -/
structure VideoResult where
  filename : String
  videoKey : String
  thumbnailKeys : Option ImageKeys
  contentHash : String
  blurData : Option String
deriving DecidableEq, Repr

/-- The `for (const [size, variant] of Object.entries(variants))` upload
loop shared by the image path and the video-thumbnail path: build each
variant's key, `put` it, and append the key to the rollback list and the
size-indexed key map.  A failed `put` throws, carrying the world and the
rollback list at the throw point. -/
def uploadVariantsLoop (env : Env) (slug hash : String) :
    World → List String → List (String × String) → List (String × Variant) →
    Except (JsErr × World × List String)
      (World × List String × List (String × String))
  | w, uploaded, keyMap, [] => .ok (w, uploaded, keyMap)
  | w, uploaded, keyMap, (size, v) :: rest =>
    match uploadToRailway env w v.buffer (generateImageKey slug hash size)
        "image/webp" with
    | .error e => .error (e, w, uploaded)
    | .ok (w', key) =>
      uploadVariantsLoop env slug hash w' (uploaded ++ [key])
        (keyMap ++ [(size, key)]) rest

/-- Dimensions of the named variant (present for every `VARIANT_SIZES`
entry whenever `generateVariants` succeeded). -/
def dimsOf (variants : List (String × Variant)) (size : String) : Dimensions :=
  match lookupA variants size with
  | some v => { width := v.width, height := v.height }
  | none => { width := 0, height := 0 }

/-- The `try` block of `processImageForRailway` (`imageProcessor.js`, lines
264–310): read, hash, slug, generate variants and blur placeholder, upload
the variants in order, unlink the temp file, and build the result.  An
error carries the world and the `uploadedKeys` rollback list at the throw
point. -/
def processImageAttempt (env : Env) (w : World) (inputPath filename : String) :
    Except (JsErr × World × List String) (World × ImageResult) :=
  match readFileW w inputPath with
  | none => .error (.enoent inputPath, w, [])
  | some inputBuffer =>
    let contentHash := generateContentHash inputBuffer
    let slug := sanitizeSlug (baseNameNoExt filename)
    match generateVariants env inputBuffer with
    | .error e => .error (e, w, [])
    | .ok variants =>
      match generateBlurPlaceholder env inputBuffer with
      | .error e => .error (e, w, [])
      | .ok blurData =>
        match uploadVariantsLoop env slug contentHash w [] [] variants with
        | .error r => .error r
        | .ok (w', uploaded, keyMap) =>
          if fileExistsW w' inputPath then
            .ok (unlinkW w' inputPath,
              { filename := filename
                keys := { key_sm := (lookupA keyMap "sm").getD ""
                          key_md := (lookupA keyMap "md").getD ""
                          key_lg := (lookupA keyMap "lg").getD "" }
                contentHash := contentHash
                blurData := blurData
                dims_sm := dimsOf variants "sm"
                dims_md := dimsOf variants "md"
                dims_lg := dimsOf variants "lg" })
          else .error (.enoent inputPath, w', uploaded)

/-- `processImageForRailway` (`imageProcessor.js`, lines 264–324): the
`try` block above with its `catch` handler — roll back any uploaded keys
with `deleteMultipleFromRailway`, unlink the temp file if it still exists,
and re-throw the triggering error. -/
def processImageForRailway (env : Env) (w : World)
    (inputPath filename : String) : World × Except JsErr ImageResult :=
  match processImageAttempt env w inputPath filename with
  | .ok (w', res) => (w', .ok res)
  | .error (e, w', uploadedKeys) =>
    let w₂ := if uploadedKeys.length > 0
      then (deleteMultipleFromRailway env w' uploadedKeys).1 else w'
    let w₃ := if fileExistsW w₂ inputPath then unlinkW w₂ inputPath else w₂
    (w₃, .error e)

/-- The `videoContentTypes[ext] || 'video/mp4'` lookup. -/
def videoContentType (ext : String) : String :=
  if ext = ".mp4" then "video/mp4"
  else if ext = ".webm" then "video/webm"
  else if ext = ".mov" then "video/quicktime"
  else "video/mp4"

/-- The `try` block of `processVideoForRailway` (`imageProcessor.js`, lines
334–397): read and hash the video, upload it under its video key, then if a
thumbnail was supplied run the thumbnail bytes through the image-variant
pipeline under the `-thumb` slug and the thumbnail's own hash, unlink both
temp files, and build the result. -/
def processVideoAttempt (env : Env) (w : World) (inputPath filename : String)
    (thumbPath : Option String) :
    Except (JsErr × World × List String) (World × VideoResult) :=
  match readFileW w inputPath with
  | none => .error (.enoent inputPath, w, [])
  | some videoBuffer =>
    let contentHash := generateContentHash videoBuffer
    let slug := sanitizeSlug (baseNameNoExt filename)
    let ext : String := ⟨(extnameChars (basenameJs filename).data).map
      Char.toLower⟩
    let videoKey := generateVideoKey slug contentHash
    match uploadToRailway env w videoBuffer videoKey (videoContentType ext)
      with
    | .error e => .error (e, w, [])
    | .ok (w₁, _) =>
      match thumbPath with
      | none =>
        if fileExistsW w₁ inputPath then
          .ok (unlinkW w₁ inputPath,
            { filename := filename, videoKey := videoKey,
              thumbnailKeys := none, contentHash := contentHash,
              blurData := none })
        else .error (.enoent inputPath, w₁, [videoKey])
      | some tp =>
        match readFileW w₁ tp with
        | none => .error (.enoent tp, w₁, [videoKey])
        | some thumbBuffer =>
          let thumbHash := generateContentHash thumbBuffer
          let thumbSlug := slug ++ "-thumb"
          match generateVariants env thumbBuffer with
          | .error e => .error (e, w₁, [videoKey])
          | .ok thumbVariants =>
            match generateBlurPlaceholder env thumbBuffer with
            | .error e => .error (e, w₁, [videoKey])
            | .ok blur =>
              match uploadVariantsLoop env thumbSlug thumbHash w₁ [videoKey]
                  [] thumbVariants with
              | .error r => .error r
              | .ok (w₂, uploadedAll, keyMap) =>
                if fileExistsW w₂ tp then
                  let w₃ := unlinkW w₂ tp
                  if fileExistsW w₃ inputPath then
                    .ok (unlinkW w₃ inputPath,
                      { filename := filename, videoKey := videoKey,
                        thumbnailKeys := some
                          { key_sm := (lookupA keyMap "sm").getD ""
                            key_md := (lookupA keyMap "md").getD ""
                            key_lg := (lookupA keyMap "lg").getD "" },
                        contentHash := contentHash,
                        blurData := some blur })
                  else .error (.enoent inputPath, w₃, uploadedAll)
                else .error (.enoent tp, w₂, uploadedAll)

/-- `processVideoForRailway` (`imageProcessor.js`, lines 334–414): the
`try` block above with its `catch` handler — roll back any uploaded keys,
unlink whichever temp files still exist, and re-throw. -/
def processVideoForRailway (env : Env) (w : World)
    (inputPath filename : String) (thumbPath : Option String) :
    World × Except JsErr VideoResult :=
  match processVideoAttempt env w inputPath filename thumbPath with
  | .ok (w', res) => (w', .ok res)
  | .error (e, w', uploadedKeys) =>
    let w₂ := if uploadedKeys.length > 0
      then (deleteMultipleFromRailway env w' uploadedKeys).1 else w'
    let w₃ := if fileExistsW w₂ inputPath then unlinkW w₂ inputPath else w₂
    let w₄ := match thumbPath with
      | some tp => if fileExistsW w₃ tp then unlinkW w₃ tp else w₃
      | none => w₃
    (w₄, .error e)
/-- The three variant keys that one image-ingestion call uploads, in
`VARIANT_SIZES` order, as a function of the original filename and the
source bytes (the code passes the already-sanitized slug to
`generateImageKey`, which sanitizes again). -/
def imageVariantKeys (filename : String) (buf : List Nat) : List String :=
  VARIANT_SIZES.map (fun p =>
    generateImageKey (sanitizeSlug (baseNameNoExt filename))
      (generateContentHash buf) p.1)

/-! ## Lemmas: shape of sanitized slugs -/

theorem isLowerAlnum_ne_hyphen {c : Char} (h : isLowerAlnum c = true) :
    c ≠ '-' := by
  intro hc; subst hc; exact absurd h (by decide)

theorem toLower_eq_self (c : Char) (h : (isLowerAlnum c || c = '-') = true) :
    c.toLower = c := by
  unfold Char.toLower
  simp only [isLowerAlnum, Bool.or_eq_true, Bool.and_eq_true,
    decide_eq_true_eq] at h
  have hn : ¬ (65 ≤ c.toNat ∧ c.toNat ≤ 90) := by
    rcases h with (⟨h1, h2⟩ | ⟨h1, h2⟩) | h1
    · have : 97 ≤ c.toNat := h1
      omega
    · have : c.toNat ≤ 57 := h2
      omega
    · subst h1
      decide
  simp only [ge_iff_le, Bool.and_eq_true, decide_eq_true_eq]
  rw [if_neg]
  exact fun hh => hn ⟨hh.1, hh.2⟩

theorem goodOrHyphen_cons {c : Char} {l : List Char} :
    goodOrHyphen (c :: l) = ((isLowerAlnum c || c = '-') && goodOrHyphen l) := by
  simp [goodOrHyphen]

theorem noDD_tail {a : Char} {l : List Char}
    (h : noDoubleHyphen (a :: l) = true) : noDoubleHyphen l = true := by
  cases l with
  | nil => rfl
  | cons b t =>
    simp only [noDoubleHyphen, Bool.and_eq_true] at h
    exact h.2

theorem noDD_cons_of_ne {c : Char} {l : List Char} (hc : c ≠ '-')
    (hl : noDoubleHyphen l = true) : noDoubleHyphen (c :: l) = true := by
  cases l with
  | nil => rfl
  | cons b t =>
    simp only [noDoubleHyphen, Bool.and_eq_true] at hl ⊢
    simp [hc, hl]

theorem rnar_cons_good {b : Char} (t : List Char)
    (hb : isLowerAlnum b = true) :
    replaceNonAlnumRuns (b :: t) = b :: replaceNonAlnumRuns t := by
  cases t with
  | nil => simp [replaceNonAlnumRuns, hb]
  | cons c t' => simp [replaceNonAlnumRuns, hb]

theorem rnar_goodOrHyphen : ∀ l, goodOrHyphen (replaceNonAlnumRuns l) = true := by
  intro l
  induction l with
  | nil => rfl
  | cons a t ih =>
    cases t with
    | nil =>
      by_cases ha : isLowerAlnum a = true
      · simp [replaceNonAlnumRuns, ha, goodOrHyphen]
      · simp only [replaceNonAlnumRuns, if_neg ha]
        decide
    | cons b t' =>
      by_cases ha : isLowerAlnum a = true
      · rw [rnar_cons_good _ ha, goodOrHyphen_cons, ih, ha]
        simp
      · simp only [replaceNonAlnumRuns, if_neg ha]
        by_cases hb : isLowerAlnum b = true
        · rw [if_pos hb, goodOrHyphen_cons, ih]
          simp
        · rw [if_neg hb]
          exact ih

theorem rnar_noDoubleHyphen : ∀ l, noDoubleHyphen (replaceNonAlnumRuns l) = true := by
  intro l
  induction l with
  | nil => rfl
  | cons a t ih =>
    cases t with
    | nil =>
      by_cases ha : isLowerAlnum a = true
      · simp [replaceNonAlnumRuns, ha, noDoubleHyphen]
      · simp only [replaceNonAlnumRuns, if_neg ha]
        rfl
    | cons b t' =>
      by_cases ha : isLowerAlnum a = true
      · rw [rnar_cons_good _ ha]
        exact noDD_cons_of_ne (isLowerAlnum_ne_hyphen ha) ih
      · simp only [replaceNonAlnumRuns, if_neg ha]
        by_cases hb : isLowerAlnum b = true
        · rw [if_pos hb]
          rw [rnar_cons_good _ hb] at ih ⊢
          simp only [noDoubleHyphen, Bool.and_eq_true] at ih ⊢
          refine ⟨?_, ih⟩
          simp [isLowerAlnum_ne_hyphen hb]
        · rw [if_neg hb]
          exact ih

theorem rnar_fixed : ∀ l, goodOrHyphen l = true → noDoubleHyphen l = true →
    replaceNonAlnumRuns l = l := by
  intro l
  induction l with
  | nil => intro _ _; rfl
  | cons a t ih =>
    intro hGH hDD
    rw [goodOrHyphen_cons, Bool.and_eq_true] at hGH
    obtain ⟨ha, hGH'⟩ := hGH
    cases t with
    | nil =>
      rcases (by simpa using ha : isLowerAlnum a = true ∨ a = '-') with hgood | heq
      · simp [replaceNonAlnumRuns, hgood]
      · subst heq
        rfl
    | cons b t' =>
      rcases (by simpa using ha : isLowerAlnum a = true ∨ a = '-') with hgood | haeq
      · rw [rnar_cons_good _ hgood, ih hGH' (noDD_tail hDD)]
      · have hanot : ¬ isLowerAlnum a = true := by
          subst haeq; decide
        have hbne : b ≠ '-' := by
          subst haeq
          simp only [noDoubleHyphen, Bool.and_eq_true] at hDD
          intro hb
          subst hb
          simp at hDD
        have hbgood : isLowerAlnum b = true := by
          rw [goodOrHyphen_cons, Bool.and_eq_true] at hGH'
          rcases (by simpa using hGH'.1 : isLowerAlnum b = true ∨ b = '-') with h | h
          · exact h
          · exact absurd h hbne
        simp only [replaceNonAlnumRuns, if_neg hanot, if_pos hbgood]
        rw [ih hGH' (noDD_tail hDD), haeq]

theorem collapseHyphens_id : ∀ l, noDoubleHyphen l = true →
    collapseHyphens l = l := by
  intro l
  induction l with
  | nil => intro _; rfl
  | cons a t ih =>
    intro h
    cases t with
    | nil => rfl
    | cons b t' =>
      simp only [noDoubleHyphen, Bool.and_eq_true] at h
      have hcond : ¬ ((a = '-' && b = '-') = true) := by
        simp only [Bool.and_eq_true, decide_eq_true_eq, not_and]
        have := h.1
        simp only [Bool.not_eq_true', Bool.and_eq_false_iff,
          decide_eq_false_iff_not] at this
        intro haa
        rcases this with hna | hnb
        · exact absurd haa hna
        · intro hbb; exact hnb hbb
      simp only [collapseHyphens]
      rw [if_neg hcond, ih h.2]

theorem goodOrHyphen_of_sublist {l' l : List Char} (hs : l'.Sublist l)
    (h : goodOrHyphen l = true) : goodOrHyphen l' = true := by
  simp only [goodOrHyphen, List.all_eq_true] at h ⊢
  exact fun c hc => h c (hs.subset hc)

theorem stripLead_goodOrHyphen {l : List Char} (h : goodOrHyphen l = true) :
    goodOrHyphen (stripLeadingHyphen l) = true := by
  cases l with
  | nil => exact h
  | cons c t =>
    simp only [stripLeadingHyphen]
    split
    · rw [goodOrHyphen_cons, Bool.and_eq_true] at h
      exact h.2
    · exact h

theorem stripLead_noDD {l : List Char} (h : noDoubleHyphen l = true) :
    noDoubleHyphen (stripLeadingHyphen l) = true := by
  cases l with
  | nil => exact h
  | cons c t =>
    simp only [stripLeadingHyphen]
    split
    · exact noDD_tail h
    · exact h

theorem stripLead_head {l : List Char} (h : noDoubleHyphen l = true) :
    (stripLeadingHyphen l).head? ≠ some '-' := by
  cases l with
  | nil => simp [stripLeadingHyphen]
  | cons c t =>
    simp only [stripLeadingHyphen]
    split
    · rename_i hc
      subst hc
      cases t with
      | nil => simp
      | cons b t' =>
        simp only [noDoubleHyphen, Bool.and_eq_true] at h
        have hb : b ≠ '-' := by simpa using h.1
        simpa using hb
    · rename_i hc
      simpa using hc

theorem noDD_dropLast : ∀ l : List Char, noDoubleHyphen l = true →
    noDoubleHyphen l.dropLast = true := by
  intro l
  induction l with
  | nil => intro _; rfl
  | cons a t ih =>
    intro h
    cases t with
    | nil => rfl
    | cons b t' =>
      rw [List.dropLast_cons₂]
      cases t' with
      | nil => rfl
      | cons c t'' =>
        have hbd := ih (noDD_tail h)
        rw [List.dropLast_cons₂] at hbd
        simp only [noDoubleHyphen, Bool.and_eq_true] at h
        rw [List.dropLast_cons₂]
        simp only [noDoubleHyphen, Bool.and_eq_true]
        exact ⟨h.1, hbd⟩

theorem getLast?_dropLast_ne {l : List Char} (h : noDoubleHyphen l = true)
    (hl : l.getLast? = some '-') : l.dropLast.getLast? ≠ some '-' := by
  induction l with
  | nil => simp at hl
  | cons a t ih =>
    cases t with
    | nil =>
      simp only [List.getLast?_singleton, Option.some.injEq] at hl
      simp
    | cons b t' =>
      rw [List.getLast?_cons_cons] at hl
      rw [List.dropLast_cons₂]
      cases t' with
      | nil =>
        simp only [List.getLast?_singleton, Option.some.injEq] at hl
        subst hl
        simp only [List.dropLast_single, List.getLast?_singleton, ne_eq,
          Option.some.injEq]
        simp only [noDoubleHyphen, Bool.and_eq_true] at h
        simpa using h.1
      | cons c t'' =>
        have := ih (noDD_tail h) hl
        rw [List.dropLast_cons₂] at this ⊢
        simpa using this

theorem stripTrail_goodOrHyphen {l : List Char} (h : goodOrHyphen l = true) :
    goodOrHyphen (stripTrailingHyphen l) = true := by
  unfold stripTrailingHyphen
  split
  · exact goodOrHyphen_of_sublist (List.dropLast_sublist l) h
  · exact h

theorem stripTrail_noDD {l : List Char} (h : noDoubleHyphen l = true) :
    noDoubleHyphen (stripTrailingHyphen l) = true := by
  unfold stripTrailingHyphen
  split
  · exact noDD_dropLast l h
  · exact h

theorem stripTrail_last {l : List Char} (h : noDoubleHyphen l = true) :
    (stripTrailingHyphen l).getLast? ≠ some '-' := by
  unfold stripTrailingHyphen
  split
  · rename_i hl
    exact getLast?_dropLast_ne h hl
  · rename_i hl
    exact hl

theorem stripTrail_head {l : List Char} (h : l.head? ≠ some '-') :
    (stripTrailingHyphen l).head? ≠ some '-' := by
  unfold stripTrailingHyphen
  split
  · cases l with
    | nil => simp
    | cons a t =>
      cases t with
      | nil => simp
      | cons b t' =>
        rw [List.dropLast_cons₂]
        simpa using h
  · exact h

theorem noDD_take : ∀ (l : List Char) (n : Nat), noDoubleHyphen l = true →
    noDoubleHyphen (l.take n) = true := by
  intro l
  induction l with
  | nil => intro n _; simp [noDoubleHyphen]
  | cons a t ih =>
    intro n h
    cases n with
    | zero => rfl
    | succ m =>
      rw [List.take_succ_cons]
      cases t with
      | nil => simp [noDoubleHyphen]
      | cons b t' =>
        cases m with
        | zero => rfl
        | succ k =>
          rw [List.take_succ_cons]
          simp only [noDoubleHyphen, Bool.and_eq_true] at h ⊢
          refine ⟨h.1, ?_⟩
          have := ih (k + 1) h.2
          rwa [List.take_succ_cons] at this

theorem head_take {l : List Char} (n : Nat) (h : l.head? ≠ some '-') :
    (l.take n).head? ≠ some '-' := by
  cases l with
  | nil => simp
  | cons a t =>
    cases n with
    | zero => simp
    | succ m =>
      rw [List.take_succ_cons]
      simpa using h

theorem matchSlugAux_of_shape : ∀ (l : List Char),
    goodOrHyphen l = true → noDoubleHyphen l = true →
    l.getLast? ≠ some '-' → ∀ b : Bool,
    (b = true ∨ ∃ c t, l = c :: t ∧ isLowerAlnum c = true) →
    matchSlugAux b l = true := by
  intro l
  induction l with
  | nil =>
    intro _ _ _ b hb
    rcases hb with hb | ⟨c, t, hct, _⟩
    · simpa [matchSlugAux] using hb
    · exact absurd hct (by simp)
  | cons c cs ih =>
    intro hGH hDD hlast b hb
    rw [goodOrHyphen_cons, Bool.and_eq_true] at hGH
    have hlast' : cs.getLast? ≠ some '-' := by
      cases cs with
      | nil => simp
      | cons d t' => rwa [List.getLast?_cons_cons] at hlast
    rcases (by simpa using hGH.1 : isLowerAlnum c = true ∨ c = '-') with hg | he
    · simp only [matchSlugAux, if_pos hg]
      exact ih hGH.2 (noDD_tail hDD) hlast' true (Or.inl rfl)
    · subst he
      have hbtrue : b = true := by
        rcases hb with hb | ⟨c', t', hct, hc'⟩
        · exact hb
        · have : c' = '-' := by
            have := hct
            injection this with h1 _
            exact h1.symm
          subst this
          exact absurd hc' (by decide)
      subst hbtrue
      simp only [matchSlugAux]
      rw [if_neg (by decide), if_pos (by decide)]
      cases cs with
      | nil => exact absurd hlast (by simp)
      | cons d t' =>
        have hd : d ≠ '-' := by
          simp only [noDoubleHyphen, Bool.and_eq_true] at hDD
          simpa using hDD.1
        have hdg : isLowerAlnum d = true := by
          have h2 := hGH.2
          rw [goodOrHyphen_cons, Bool.and_eq_true] at h2
          rcases (by simpa using h2.1 : isLowerAlnum d = true ∨ d = '-')
            with hx | hx
          · exact hx
          · exact absurd hx hd
        exact ih hGH.2 (noDD_tail hDD) hlast' false
          (Or.inr ⟨d, t', rfl, hdg⟩)

theorem stripTrail_cons_head (c : Char) (t : List Char) (hc : c ≠ '-') :
    ∃ t', stripTrailingHyphen (c :: t) = c :: t' := by
  unfold stripTrailingHyphen
  split
  · rename_i hl
    cases t with
    | nil =>
      simp only [List.getLast?_singleton, Option.some.injEq] at hl
      exact absurd hl hc
    | cons b t'' =>
      rw [List.dropLast_cons₂]
      exact ⟨_, rfl⟩
  · exact ⟨t, rfl⟩

theorem stripLead_id_of_head {l : List Char} (h : l.head? ≠ some '-') :
    stripLeadingHyphen l = l := by
  cases l with
  | nil => rfl
  | cons c t =>
    simp only [stripLeadingHyphen]
    rw [if_neg]
    simpa using h

theorem stripTrail_length_le (l : List Char) :
    (stripTrailingHyphen l).length ≤ l.length := by
  unfold stripTrailingHyphen
  split
  · simp [List.length_dropLast]
  · exact Nat.le_refl _

theorem map_toLower_fixed : ∀ l : List Char, goodOrHyphen l = true →
    l.map Char.toLower = l := by
  intro l
  induction l with
  | nil => intro _; rfl
  | cons c t ih =>
    intro h
    rw [goodOrHyphen_cons, Bool.and_eq_true] at h
    simp only [List.map_cons]
    rw [toLower_eq_self c h.1, ih h.2]

theorem sanitizeSlugChars_shape (l : List Char) :
    goodOrHyphen (sanitizeSlugChars l) = true ∧
    noDoubleHyphen (sanitizeSlugChars l) = true ∧
    (sanitizeSlugChars l).head? ≠ some '-' ∧
    (sanitizeSlugChars l).length ≤ 50 := by
  unfold sanitizeSlugChars
  rw [collapseHyphens_id _ (rnar_noDoubleHyphen (l.map Char.toLower))]
  have h1g := rnar_goodOrHyphen (l.map Char.toLower)
  have h1d := rnar_noDoubleHyphen (l.map Char.toLower)
  have h2g := stripLead_goodOrHyphen h1g
  have h2d := stripLead_noDD h1d
  have h2h := stripLead_head h1d
  refine ⟨goodOrHyphen_of_sublist (List.take_sublist _ _)
      (stripTrail_goodOrHyphen h2g),
    noDD_take _ _ (stripTrail_noDD h2d),
    head_take _ (stripTrail_head h2h), ?_⟩
  have := List.length_take 50 (stripTrailingHyphen (stripLeadingHyphen
    (replaceNonAlnumRuns (l.map Char.toLower))))
  omega

theorem sanitizeSlugChars_matches (l : List Char) :
    sanitizeSlugChars l = [] ∨
    matchSlugAux false (stripTrailingHyphen (sanitizeSlugChars l)) = true := by
  obtain ⟨hg, hd, hh, _⟩ := sanitizeSlugChars_shape l
  cases hout : sanitizeSlugChars l with
  | nil => exact Or.inl rfl
  | cons c t =>
    rw [hout] at hg hd hh
    right
    have hc : c ≠ '-' := by simpa using hh
    have hcg : isLowerAlnum c = true := by
      rw [goodOrHyphen_cons, Bool.and_eq_true] at hg
      rcases (by simpa using hg.1 : isLowerAlnum c = true ∨ c = '-') with hx | hx
      · exact hx
      · exact absurd hx hc
    obtain ⟨t', ht'⟩ := stripTrail_cons_head c t hc
    exact matchSlugAux_of_shape _ (stripTrail_goodOrHyphen hg)
      (stripTrail_noDD hd) (stripTrail_last hd) false
      (Or.inr ⟨c, t', ht', hcg⟩)

theorem sanitizeSlugChars_idem (l : List Char) :
    sanitizeSlugChars (sanitizeSlugChars l) =
      stripTrailingHyphen (sanitizeSlugChars l) := by
  obtain ⟨hg, hd, hh, hlen⟩ := sanitizeSlugChars_shape l
  conv_lhs => rw [sanitizeSlugChars]
  rw [map_toLower_fixed _ hg, rnar_fixed _ hg hd,
    collapseHyphens_id _ hd, stripLead_id_of_head hh]
  exact List.take_of_length_le (Nat.le_trans (stripTrail_length_le _) hlen)

/-! ## Claim theorems -/

/-- C3, counterexample.  The input of 49 `a`s followed by `" b"` sanitizes
to 49 `a`s followed by a hyphen: `.substring(0, 50)` runs after the
hyphen-trimming step, so truncation can re-introduce a trailing hyphen and
the result violates `^[a-z0-9]+(-[a-z0-9]+)*$` while being non-empty. -/
theorem c3_counterexample :
    sanitizeSlug "aaaaaaaaaaaaaaaaaaaaaaaaaaaaaaaaaaaaaaaaaaaaaaaaa b" =
      "aaaaaaaaaaaaaaaaaaaaaaaaaaaaaaaaaaaaaaaaaaaaaaaaa-" ∧
    sanitizeSlug "aaaaaaaaaaaaaaaaaaaaaaaaaaaaaaaaaaaaaaaaaaaaaaaaa b" ≠ "" ∧
    matchesSlugRegex
      (sanitizeSlug "aaaaaaaaaaaaaaaaaaaaaaaaaaaaaaaaaaaaaaaaaaaaaaaaa b") =
      false := by
  refine ⟨by decide, by decide, by decide⟩

/-- C3, amended: for every input string, `sanitizeSlug` returns at most 50
characters, and the result is empty or matches
`^[a-z0-9]+(-[a-z0-9]+)*$` after removing at most one trailing hyphen
(the hyphen can only appear when truncation at 50 characters cuts directly
after a hyphen). -/
theorem c3_slug_shape (s : String) :
    (sanitizeSlug s).length ≤ 50 ∧
    (sanitizeSlug s = "" ∨
      matchSlugAux false (stripTrailingHyphen (sanitizeSlug s).data) = true) := by
  refine ⟨(sanitizeSlugChars_shape s.data).2.2.2, ?_⟩
  rcases sanitizeSlugChars_matches s.data with h | h
  · left
    show (⟨sanitizeSlugChars s.data⟩ : String) = ""
    rw [h]
  · right
    exact h

/-- C10, counterexample: `sanitizeSlug` is not idempotent.  On 49 `a`s
followed by `" b"` the first application yields 49 `a`s and a trailing
hyphen (truncation runs after trimming), and the second application strips
that hyphen. -/
theorem c10_counterexample :
    sanitizeSlug
        (sanitizeSlug "aaaaaaaaaaaaaaaaaaaaaaaaaaaaaaaaaaaaaaaaaaaaaaaaa b") ≠
      sanitizeSlug "aaaaaaaaaaaaaaaaaaaaaaaaaaaaaaaaaaaaaaaaaaaaaaaaa b" := by
  decide

/-- C10, amended: re-sanitizing a sanitized slug only strips the possible
trailing hyphen left by truncation: `sanitizeSlug (sanitizeSlug s)` equals
`sanitizeSlug s` with at most one trailing hyphen removed, so `sanitizeSlug`
is idempotent exactly on those inputs whose sanitized form does not end in
a hyphen, and key building from an already-sanitized slug agrees with key
building from the raw name except in that truncation edge case. -/
theorem c10_sanitize_twice (s : String) :
    sanitizeSlug (sanitizeSlug s) =
      ⟨stripTrailingHyphen (sanitizeSlug s).data⟩ :=
  congrArg String.mk (sanitizeSlugChars_idem s.data)

/-- C4: the key builders are pure and deterministic — equal arguments give
equal keys of the documented shapes
`<imagePrefix>/gallery/<slug>-<hash>-<size>.webp` and
`<videoPrefix>/gallery/<slug>-<hash>.mp4` (with the slug sanitized). -/
theorem c4_key_determinism (slug hash size : String) :
    generateImageKey slug hash size = generateImageKey slug hash size ∧
    generateImageKey slug hash size =
      mediaPathsImages ++ "/gallery/" ++ sanitizeSlug slug ++ "-" ++ hash ++
        "-" ++ size ++ ".webp" ∧
    generateVideoKey slug hash = generateVideoKey slug hash ∧
    generateVideoKey slug hash =
      mediaPathsVideos ++ "/gallery/" ++ sanitizeSlug slug ++ "-" ++ hash ++
        ".mp4" :=
  ⟨rfl, rfl, rfl, rfl⟩

/-- C5, counterexample: the key builder does not reject a slug that
sanitizes to the empty string — no `InvalidKeyError` exists anywhere in the
code — and instead returns a degenerate storage key whose basename starts
with a hyphen. -/
theorem c5_counterexample :
    sanitizeSlug "!!!" = "" ∧
    generateImageKey "!!!" "deadbeef" "md" = "images/gallery/-deadbeef-md.webp" ∧
    generateVideoKey "!!!" "deadbeef" = "videos/gallery/-deadbeef.mp4" := by
  refine ⟨by decide, by decide, by decide⟩

/-- C5, amended: the key builder has no failure modes at all; a slug that
sanitizes to the empty string is not rejected, and the resulting key equals
the one built from the empty slug, with an empty slug segment: the key's
basename is `-<hash>[-<size>].<ext>`. -/
theorem c5_empty_slug_key (slug hash size : String)
    (h : sanitizeSlug slug = "") :
    generateImageKey slug hash size = generateImageKey "" hash size ∧
    generateVideoKey slug hash = generateVideoKey "" hash := by
  unfold generateImageKey generateVideoKey
  rw [h]
  exact ⟨rfl, rfl⟩

/-- Witness for the amended C5 at the concrete slug `"!!!"`. -/
theorem c5_empty_slug_key_witness :
    generateImageKey "!!!" "deadbeef" "md" = generateImageKey "" "deadbeef" "md" ∧
    generateVideoKey "!!!" "deadbeef" = generateVideoKey "" "deadbeef" :=
  c5_empty_slug_key "!!!" "deadbeef" "md" (by decide)

/-! ## Lemmas: association lists and the batch-delete fold -/

theorem lookupA_cons {α : Type} (k' : String) (v' : α) (t : List (String × α))
    (k : String) :
    lookupA ((k', v') :: t) k = if k' = k then some v' else lookupA t k := by
  by_cases h : k' = k
  · simp [lookupA, List.find?_cons, h]
  · simp [lookupA, List.find?_cons, h]

theorem lookupA_upsertA_self {α : Type} (l : List (String × α)) (k : String)
    (v : α) : lookupA (upsertA l k v) k = some v := by
  induction l with
  | nil => simp [upsertA, lookupA_cons]
  | cons p t ih =>
    obtain ⟨k', v'⟩ := p
    by_cases h : k' = k
    · simp [upsertA, h, lookupA_cons]
    · simp only [upsertA, show (k' == k) = false by simpa using h,
        Bool.false_eq_true, if_false]
      rw [lookupA_cons, if_neg h]
      exact ih

theorem lookupA_upsertA_ne {α : Type} (l : List (String × α)) (k k' : String)
    (v : α) (h : k ≠ k') : lookupA (upsertA l k' v) k = lookupA l k := by
  induction l with
  | nil =>
    rw [show upsertA ([] : List (String × α)) k' v = [(k', v)] from rfl,
      lookupA_cons, if_neg (fun hh => h hh.symm)]
  | cons p t ih =>
    obtain ⟨k'', v''⟩ := p
    by_cases hk : k'' = k'
    · subst hk
      simp only [upsertA, beq_self_eq_true, if_true]
      rw [lookupA_cons, lookupA_cons, if_neg (fun hh => h hh.symm),
        if_neg (fun hh => h hh.symm)]
    · simp only [upsertA, show (k'' == k') = false by simpa using hk,
        Bool.false_eq_true, if_false]
      rw [lookupA_cons, lookupA_cons]
      by_cases hx : k'' = k
      · simp [hx]
      · rw [if_neg hx, if_neg hx]
        exact ih

theorem lookupA_removeA_self {α : Type} (l : List (String × α)) (k : String) :
    lookupA (removeA l k) k = none := by
  induction l with
  | nil => rfl
  | cons p t ih =>
    obtain ⟨k', v'⟩ := p
    by_cases h : k' = k
    · subst h
      simpa [removeA, List.filter_cons] using ih
    · simp only [removeA, List.filter_cons,
        show ((k', v').1 != k) = true by simpa using h, if_true]
      rw [lookupA_cons, if_neg h]
      simpa [removeA] using ih

theorem lookupA_removeA_ne {α : Type} (l : List (String × α)) (k k' : String)
    (h : k ≠ k') : lookupA (removeA l k') k = lookupA l k := by
  induction l with
  | nil => rfl
  | cons p t ih =>
    obtain ⟨k'', v''⟩ := p
    by_cases hk : k'' = k'
    · subst hk
      simp only [removeA, List.filter_cons, bne_self_eq_false,
        Bool.false_eq_true, if_false]
      rw [lookupA_cons, if_neg (by intro hh; exact h hh.symm)]
      simpa [removeA] using ih
    · simp only [removeA, List.filter_cons,
        show ((k'', v'').1 != k') = true by simpa using hk, if_true]
      rw [lookupA_cons, lookupA_cons]
      by_cases hx : k'' = k
      · simp [hx]
      · rw [if_neg hx, if_neg hx]
        simpa [removeA] using ih

theorem removeA_of_absent {α : Type} (l : List (String × α)) (k : String)
    (h : lookupA l k = none) : removeA l k = l := by
  induction l with
  | nil => rfl
  | cons p t ih =>
    obtain ⟨k', v'⟩ := p
    rw [lookupA_cons] at h
    by_cases hk : k' = k
    · rw [if_pos hk] at h
      exact absurd h (by simp)
    · rw [if_neg hk] at h
      simp only [removeA, List.filter_cons,
        show ((k', v').1 != k) = true by simpa using hk, if_true]
      show (k', v') :: removeA t k = (k', v') :: t
      rw [ih h]

theorem deleteMultipleStep_foldl_inv (env : Env) :
    ∀ (ks : List String) (w : World) (r : DelResults),
      ((ks.foldl (deleteMultipleStep env) (w, r)).2.success +
          (ks.foldl (deleteMultipleStep env) (w, r)).2.failed =
        r.success + r.failed + ks.length) ∧
      r.failed ≤ (ks.foldl (deleteMultipleStep env) (w, r)).2.failed ∧
      ((ks.foldl (deleteMultipleStep env) (w, r)).2.errors.length + r.failed ≤
        r.errors.length + (ks.foldl (deleteMultipleStep env) (w, r)).2.failed)
    := by
  intro ks
  induction ks with
  | nil => intro w r; exact ⟨by simp, Nat.le_refl _, by simp⟩
  | cons k t ih =>
    intro w r
    rw [List.foldl_cons]
    cases hdel : deleteFromRailway env w k with
    | error e =>
      have hstep : deleteMultipleStep env (w, r) k =
          (w, { r with failed := r.failed + 1,
                       errors := r.errors ++ [(k, errMessage e)] }) := by
        simp [deleteMultipleStep, hdel]
      rw [hstep]
      obtain ⟨h1, h2, h3⟩ := ih w
        { r with failed := r.failed + 1,
                 errors := r.errors ++ [(k, errMessage e)] }
      dsimp only at h1 h2 h3
      simp only [List.length_append, List.length_cons, List.length_nil] at h3
      refine ⟨?_, ?_, ?_⟩ <;> (try simp only [List.length_cons]) <;> omega
    | ok p =>
      obtain ⟨w', b⟩ := p
      cases b with
      | true =>
        have hstep : deleteMultipleStep env (w, r) k =
            (w', { r with success := r.success + 1 }) := by
          simp [deleteMultipleStep, hdel]
        rw [hstep]
        obtain ⟨h1, h2, h3⟩ := ih w' { r with success := r.success + 1 }
        dsimp only at h1 h2 h3
        refine ⟨?_, ?_, ?_⟩ <;> (try simp only [List.length_cons]) <;> omega
      | false =>
        have hstep : deleteMultipleStep env (w, r) k =
            (w', { r with failed := r.failed + 1 }) := by
          simp [deleteMultipleStep, hdel]
        rw [hstep]
        obtain ⟨h1, h2, h3⟩ := ih w' { r with failed := r.failed + 1 }
        dsimp only at h1 h2 h3
        refine ⟨?_, ?_, ?_⟩ <;> (try simp only [List.length_cons]) <;> omega

/-- C7, counterexample.  With `keys = ["", "k"]` against a backend that
fails the delete of `"k"`: the empty key is silently dropped by
`keys.filter(Boolean)` (so not every key of the list is attempted and
`succeeded + failed = 1 ≠ 2`), and the failed key produces no per-key error
entry, because `deleteFromRailway` catches the backend error and reports
`false`, which the aggregator counts in `failed` without pushing to
`errors`. -/
theorem c7_counterexample :
    (deleteMultipleFromRailway ⟨[], ["k"], false, []⟩ ⟨[], []⟩ ["", "k"]).2 =
      ⟨0, 1, []⟩ ∧
    ¬ ((0 : Nat) + 1 = (["", "k"] : List String).length) ∧
    ¬ (([] : List (String × String)).length = (1 : Nat)) := by
  refine ⟨by decide, by decide, by decide⟩

/-- C7, amended: `deleteMultipleFromRailway` never throws and never aborts
early; it attempts every *non-empty* key of the list (`filter(Boolean)`
drops empty keys), its succeeded plus failed counts equal the number of
keys attempted, and it records *at most* one error entry per failure —
entries exist only for failures that throw past the per-key delete wrapper
(which itself catches backend errors and reports `false`, counted in
`failed` with no entry). -/
theorem c7_delete_many_counts (env : Env) (w : World) (keys : List String) :
    (deleteMultipleFromRailway env w keys).2.success +
        (deleteMultipleFromRailway env w keys).2.failed =
      (keys.filter (fun k => k != "")).length ∧
    (deleteMultipleFromRailway env w keys).2.errors.length ≤
      (deleteMultipleFromRailway env w keys).2.failed := by
  unfold deleteMultipleFromRailway
  obtain ⟨h1, h2, h3⟩ :=
    deleteMultipleStep_foldl_inv env (keys.filter (fun k => k != "")) w
      ⟨0, 0, []⟩
  constructor
  · simpa using h1
  · simpa using h3

/-- C8, counterexample.  Deleting a key that is absent from the store via
the Railway backend returns `true`, not `false`: the S3-compatible
`DeleteObjectCommand` succeeds for an absent key, and `deleteFromRailway`
returns `true` whenever the send succeeds. -/
theorem c8_counterexample :
    storedObject ⟨[], []⟩ "k" = none ∧
    deleteFromRailway ⟨[], [], false, []⟩ ⟨[], []⟩ "k" =
      .ok (⟨[], []⟩, true) := by
  exact ⟨rfl, rfl⟩

/-- C8, amended.  `localStorage.delete` behaves as claimed: `true` exactly
when a file was removed, `false` for an absent path, never throwing, and
the state is unchanged in the `false` case.  `deleteFromRailway` never
throws for a not-found key and leaves the store unchanged for an absent
key, but it returns `true` whenever the backend send succeeds — including
for an absent key (S3 delete semantics) — and `false` only when the
backend send errors. -/
theorem c8_delete_semantics (w : World) (p : String) (env : Env)
    (k : String) :
    (fileExistsW w p = false → localStorageDelete w p = (w, false)) ∧
    (fileExistsW w p = true → localStorageDelete w p = (unlinkW w p, true)) ∧
    (env.clientInitFails = false → k ∉ env.deleteFailKeys →
      deleteFromRailway env w k =
        .ok ({ w with objects := removeA w.objects k }, true)) ∧
    (env.clientInitFails = false → k ∈ env.deleteFailKeys →
      deleteFromRailway env w k = .ok (w, false)) ∧
    (env.clientInitFails = false → k ∉ env.deleteFailKeys →
      storedObject w k = none →
      deleteFromRailway env w k = .ok (w, true)) := by
  refine ⟨?_, ?_, ?_, ?_, ?_⟩
  · intro h
    simp [localStorageDelete, h]
  · intro h
    simp [localStorageDelete, h]
  · intro h1 h2
    simp [deleteFromRailway, h1, h2]
  · intro h1 h2
    simp [deleteFromRailway, h1, h2]
  · intro h1 h2 h3
    simp only [deleteFromRailway, h1, Bool.false_eq_true, if_false,
      if_neg h2]
    rw [removeA_of_absent w.objects k h3]

/-- Witness for the amended C8: a filesystem without `"p"`, a filesystem
with `"p"`, and a store whose backend deletes `"k"` successfully, fails
`"f"`, and holds no object at all. -/
theorem c8_delete_semantics_witness :
    localStorageDelete ⟨[], []⟩ "p" = (⟨[], []⟩, false) ∧
    localStorageDelete ⟨[("p", [1])], []⟩ "p" =
      (unlinkW ⟨[("p", [1])], []⟩ "p", true) ∧
    deleteFromRailway ⟨[], ["f"], false, []⟩ ⟨[], [("k", [2])]⟩ "k" =
      .ok (⟨[], removeA [("k", [2])] "k"⟩, true) ∧
    deleteFromRailway ⟨[], ["f"], false, []⟩ ⟨[], [("k", [2])]⟩ "f" =
      .ok (⟨[], [("k", [2])]⟩, false) ∧
    deleteFromRailway ⟨[], ["f"], false, []⟩ ⟨[], []⟩ "k" =
      .ok (⟨[], []⟩, true) :=
  ⟨(c8_delete_semantics ⟨[], []⟩ "p" ⟨[], ["f"], false, []⟩ "k").1 (by decide),
   (c8_delete_semantics ⟨[("p", [1])], []⟩ "p" ⟨[], ["f"], false, []⟩ "k").2.1
     (by decide),
   (c8_delete_semantics ⟨[], [("k", [2])]⟩ "p" ⟨[], ["f"], false, []⟩
     "k").2.2.1 rfl (by decide),
   (c8_delete_semantics ⟨[], [("k", [2])]⟩ "p" ⟨[], ["f"], false, []⟩
     "f").2.2.2.1 rfl (by decide),
   (c8_delete_semantics ⟨[], []⟩ "p" ⟨[], ["f"], false, []⟩ "k").2.2.2.2
     rfl (by decide) (by decide)⟩

/-- `min` in the claim's conditional form. -/
theorem min_eq_if (a b : Nat) : min a b = if a < b then a else b := by
  rw [Nat.min_def]
  split <;> split <;> omega

/-- C9: variant generation never upscales.  For a decodable source of
native width `srcW`, each tier's variant width is the source width when the
source is narrower than the tier target (400/800/1600), and the tier
target otherwise. -/
theorem c9_no_upscale (env : Env) (buf : List Nat) (srcW srcH : Nat)
    (hdec : decodeMeta env buf = some (srcW, srcH)) :
    ∃ vs, generateVariants env buf = .ok vs ∧
      vs.map (fun p => (p.1, p.2.width)) =
        [("sm", if srcW < 400 then srcW else 400),
         ("md", if srcW < 800 then srcW else 800),
         ("lg", if srcW < 1600 then srcW else 1600)] := by
  refine ⟨_, by rw [generateVariants, hdec], ?_⟩
  simp only [VARIANT_SIZES, List.map_cons, List.map_nil, sharpResizeWebp]
  rw [← min_eq_if, ← min_eq_if, ← min_eq_if]

/-- Witness for C9: a 1000×600 source yields widths 400, 800 and 1000 —
the `lg` tier is capped at the native width. -/
theorem c9_no_upscale_witness :
    ∃ vs, generateVariants ⟨[], [], false, [([9], (1000, 600))]⟩ [9] =
        .ok vs ∧
      vs.map (fun p => (p.1, p.2.width)) =
        [("sm", 400), ("md", 800), ("lg", 1000)] := by
  have h := c9_no_upscale ⟨[], [], false, [([9], (1000, 600))]⟩ [9] 1000 600
    (by decide)
  simpa using h

/-- C6: when the source buffer does not decode as an image, image ingestion
fails with the decode error, makes no store call at all (the object map is
untouched — `generateVariants` throws before the first `put` and the
rollback list is empty), and deletes the local temp file. -/
theorem c6_decode_failure (env : Env) (w : World) (p n : String)
    (buf : List Nat) (hread : readFileW w p = some buf)
    (hdec : decodeMeta env buf = none) :
    (processImageForRailway env w p n).2 = .error .decodeError ∧
    (processImageForRailway env w p n).1.objects = w.objects ∧
    fileExistsW (processImageForRailway env w p n).1 p = false := by
  have hatt : processImageAttempt env w p n = .error (.decodeError, w, []) := by
    rw [processImageAttempt, hread]
    dsimp only
    rw [show generateVariants env buf = .error .decodeError from
      by rw [generateVariants, hdec]]
  have hex : fileExistsW w p = true := by
    rw [fileExistsW, show lookupA w.files p = some buf from hread]
    rfl
  have hrun : processImageForRailway env w p n =
      (unlinkW w p, .error .decodeError) := by
    rw [processImageForRailway, hatt]
    dsimp only
    simp [hex]
  refine ⟨by rw [hrun], by rw [hrun]; rfl, ?_⟩
  rw [hrun]
  show ((lookupA (removeA w.files p) p).isSome) = false
  rw [lookupA_removeA_self]
  rfl

/-- Witness for C6: an undecodable buffer leaves the pre-existing object
untouched, deletes the temp file, and surfaces `DecodeError`. -/
theorem c6_decode_failure_witness :
    (processImageForRailway ⟨[], [], false, []⟩ ⟨[("t", [5])], [("old", [1])]⟩
        "t" "x.png").2 = .error .decodeError ∧
    (processImageForRailway ⟨[], [], false, []⟩ ⟨[("t", [5])], [("old", [1])]⟩
        "t" "x.png").1.objects = [("old", [1])] ∧
    fileExistsW (processImageForRailway ⟨[], [], false, []⟩
        ⟨[("t", [5])], [("old", [1])]⟩ "t" "x.png").1 "t" = false :=
  c6_decode_failure ⟨[], [], false, []⟩ ⟨[("t", [5])], [("old", [1])]⟩
    "t" "x.png" [5] (by decide) (by decide)

/-! ## Lemmas: store-call shapes and rollback -/

theorem uploadToRailway_ok (env : Env) (w : World) (body : List Nat)
    (key ct : String) (hci : env.clientInitFails = false)
    (hk : key ∉ env.putFailKeys) :
    uploadToRailway env w body key ct =
      .ok ({ w with objects := upsertA w.objects key body }, key) := by
  rw [uploadToRailway, if_neg (by simp [hci]), if_neg hk]

theorem uploadToRailway_fail (env : Env) (w : World) (body : List Nat)
    (key ct : String) (hci : env.clientInitFails = false)
    (hk : key ∈ env.putFailKeys) :
    uploadToRailway env w body key ct = .error (.putFailed key) := by
  rw [uploadToRailway, if_neg (by simp [hci]), if_pos hk]

theorem deleteFromRailway_shape (env : Env) (w : World) (key : String)
    (hci : env.clientInitFails = false) :
    deleteFromRailway env w key =
      if key ∈ env.deleteFailKeys then .ok (w, false)
      else .ok ({ w with objects := removeA w.objects key }, true) := by
  rw [deleteFromRailway, if_neg (by simp [hci])]

theorem deleteMultipleStep_files (env : Env) (w : World) (r : DelResults)
    (k : String) : ((deleteMultipleStep env (w, r) k).1).files = w.files := by
  rw [deleteMultipleStep]
  cases hdel : deleteFromRailway env w k with
  | error e => rfl
  | ok p =>
    obtain ⟨w', b⟩ := p
    have hf : w'.files = w.files := by
      rw [deleteFromRailway] at hdel
      split at hdel
      · exact absurd hdel (by simp)
      · split at hdel
        · cases hdel
          rfl
        · cases hdel
          rfl
    cases b <;> simpa using hf

theorem deleteMultiple_foldl_files (env : Env) :
    ∀ (ks : List String) (w : World) (r : DelResults),
    ((ks.foldl (deleteMultipleStep env) (w, r)).1).files = w.files := by
  intro ks
  induction ks with
  | nil => intro w r; rfl
  | cons k t ih =>
    intro w r
    rw [List.foldl_cons]
    cases hstep : deleteMultipleStep env (w, r) k with
    | mk w' r' =>
      have := deleteMultipleStep_files env w r k
      rw [hstep] at this
      rw [ih w' r', this]

theorem deleteMultipleFromRailway_files (env : Env) (w : World)
    (keys : List String) :
    ((deleteMultipleFromRailway env w keys).1).files = w.files := by
  rw [deleteMultipleFromRailway]
  exact deleteMultiple_foldl_files env _ w _

theorem foldl_delete_absent (env : Env) (hci : env.clientInitFails = false) :
    ∀ (ks : List String) (w : World) (r : DelResults) (k : String),
      k ∉ env.deleteFailKeys →
      (lookupA w.objects k = none ∨ k ∈ ks) →
      lookupA ((ks.foldl (deleteMultipleStep env) (w, r)).1).objects k =
        none := by
  intro ks
  induction ks with
  | nil =>
    intro w r k _ habs
    rcases habs with h | h
    · exact h
    · exact absurd h (by simp)
  | cons k' t ih =>
    intro w r k hd habs
    rw [List.foldl_cons]
    have hshape := deleteFromRailway_shape env w k' hci
    by_cases hk' : k' ∈ env.deleteFailKeys
    · rw [if_pos hk'] at hshape
      have hstep : deleteMultipleStep env (w, r) k' =
          (w, { r with failed := r.failed + 1 }) := by
        rw [deleteMultipleStep, hshape]
      rw [hstep]
      refine ih w _ k hd ?_
      rcases habs with h | h
      · exact Or.inl h
      · rcases List.mem_cons.mp h with h | h
        · subst h
          exact absurd hk' hd
        · exact Or.inr h
    · rw [if_neg hk'] at hshape
      have hstep : deleteMultipleStep env (w, r) k' =
          ({ w with objects := removeA w.objects k' },
            { r with success := r.success + 1 }) := by
        rw [deleteMultipleStep, hshape]
      rw [hstep]
      by_cases hkk : k = k'
      · subst hkk
        refine ih _ _ k hd (Or.inl ?_)
        dsimp only
        exact lookupA_removeA_self w.objects k
      · refine ih _ _ k hd ?_
        rcases habs with h | h
        · refine Or.inl ?_
          dsimp only
          rw [lookupA_removeA_ne w.objects k k' hkk]
          exact h
        · rcases List.mem_cons.mp h with h | h
          · exact absurd h hkk
          · exact Or.inr h

theorem deleteMultipleFromRailway_absent (env : Env) (w : World)
    (keys : List String) (k : String) (hci : env.clientInitFails = false)
    (hd : k ∉ env.deleteFailKeys) (hk : k ∈ keys) (hne : (k != "") = true) :
    lookupA ((deleteMultipleFromRailway env w keys).1).objects k = none := by
  rw [deleteMultipleFromRailway]
  refine foldl_delete_absent env hci _ w _ k hd (Or.inr ?_)
  exact List.mem_filter.mpr ⟨hk, hne⟩

theorem generateImageKey_ne_empty (slug hash size : String) :
    (generateImageKey slug hash size != "") = true := by
  simp only [bne_iff_ne, ne_eq]
  intro hcontra
  have hdata := congrArg String.data hcontra
  rw [generateImageKey] at hdata
  simp only [String.data_append] at hdata
  simp [mediaPathsImages] at hdata

theorem processImage_error_run (env : Env) (w : World) (p n : String)
    (e : JsErr) (w' : World) (ks : List String)
    (hatt : processImageAttempt env w p n = .error (e, w', ks))
    (hfiles : w'.files = w.files) (hex : fileExistsW w p = true) :
    (processImageForRailway env w p n).2 = .error e ∧
    fileExistsW (processImageForRailway env w p n).1 p = false ∧
    (processImageForRailway env w p n).1 =
      unlinkW (if ks.length > 0
        then (deleteMultipleFromRailway env w' ks).1 else w') p := by
  have hw2files : (if ks.length > 0
      then (deleteMultipleFromRailway env w' ks).1 else w').files = w.files := by
    split
    · rw [deleteMultipleFromRailway_files, hfiles]
    · exact hfiles
  have hex2 : fileExistsW (if ks.length > 0
      then (deleteMultipleFromRailway env w' ks).1 else w') p = true := by
    rw [fileExistsW] at hex ⊢
    rw [show (lookupA (if ks.length > 0
        then (deleteMultipleFromRailway env w' ks).1 else w').files p) =
      lookupA w.files p from by rw [hw2files]]
    exact hex
  have hrun : processImageForRailway env w p n =
      (unlinkW (if ks.length > 0
        then (deleteMultipleFromRailway env w' ks).1 else w') p, .error e) := by
    rw [processImageForRailway, hatt]
    dsimp only
    rw [if_pos hex2]
  refine ⟨by rw [hrun], ?_, by rw [hrun]⟩
  rw [hrun]
  show ((lookupA (removeA _ p) p).isSome) = false
  rw [lookupA_removeA_self]
  rfl

/-- C1: if a variant `put` fails during image ingestion (after any number
of earlier successful variant uploads), the orchestrator re-raises the
triggering error (it never returns a success result, so no uploaded key is
referenced by any returned result), deletes the local temp file, and rolls
back with `deleteMany`: every key uploaded before the failure whose
backend delete succeeds is absent from the final store. -/
theorem c1_rollback_on_put_failure (env : Env) (w : World) (p n : String)
    (buf : List Nat) (srcW srcH : Nat) (i : Nat) (hi : i < 3)
    (hread : readFileW w p = some buf)
    (hdec : decodeMeta env buf = some (srcW, srcH))
    (hci : env.clientInitFails = false)
    (hmem : (imageVariantKeys n buf).getD i "" ∈ env.putFailKeys)
    (hprev : ∀ j, j < i → (imageVariantKeys n buf).getD j "" ∉
      env.putFailKeys) :
    (processImageForRailway env w p n).2 =
      .error (.putFailed ((imageVariantKeys n buf).getD i "")) ∧
    fileExistsW (processImageForRailway env w p n).1 p = false ∧
    ∀ j, j < i → (imageVariantKeys n buf).getD j "" ∉ env.deleteFailKeys →
      storedObject (processImageForRailway env w p n).1
        ((imageVariantKeys n buf).getD j "") = none := by
  have hex : fileExistsW w p = true := by
    rw [fileExistsW, show lookupA w.files p = some buf from hread]
    rfl
  have hvar : generateVariants env buf =
      .ok [("sm", sharpResizeWebp buf srcW srcH 400),
           ("md", sharpResizeWebp buf srcW srcH 800),
           ("lg", sharpResizeWebp buf srcW srcH 1600)] := by
    rw [generateVariants, hdec]
    rfl
  have hblur : generateBlurPlaceholder env buf =
      .ok "data:image/webp;base64," := by
    rw [generateBlurPlaceholder, hdec]
  have hkeys : imageVariantKeys n buf =
      [generateImageKey (sanitizeSlug (baseNameNoExt n))
        (generateContentHash buf) "sm",
       generateImageKey (sanitizeSlug (baseNameNoExt n))
        (generateContentHash buf) "md",
       generateImageKey (sanitizeSlug (baseNameNoExt n))
        (generateContentHash buf) "lg"] := by
    rw [imageVariantKeys]
    rfl
  rw [hkeys] at hmem hprev ⊢
  interval_cases i
  · -- the first upload fails: nothing to roll back
    simp only [List.getD_cons_zero] at hmem ⊢
    have hatt : processImageAttempt env w p n =
        .error ⟨.putFailed (generateImageKey (sanitizeSlug (baseNameNoExt n))
          (generateContentHash buf) "sm"), w, []⟩ := by
      rw [processImageAttempt, hread]
      dsimp only
      rw [hvar, hblur]
      dsimp only
      simp only [uploadVariantsLoop]
      rw [uploadToRailway_fail _ _ _ _ _ hci hmem]
    obtain ⟨hc1, hc2, _⟩ := processImage_error_run env w p n _ _ _ hatt rfl hex
    refine ⟨hc1, hc2, ?_⟩
    intro j hj _
    omega
  · -- the second upload fails: the first key is rolled back
    simp only [List.getD_cons_zero, List.getD_cons_succ] at hmem hprev ⊢
    have h0 := hprev 0 (by omega)
    simp only [List.getD_cons_zero] at h0
    have hatt : processImageAttempt env w p n =
        .error ⟨.putFailed (generateImageKey (sanitizeSlug (baseNameNoExt n))
            (generateContentHash buf) "md"),
          ⟨w.files, upsertA w.objects
            (generateImageKey (sanitizeSlug (baseNameNoExt n))
              (generateContentHash buf) "sm")
            (sharpResizeWebp buf srcW srcH 400).buffer⟩,
          [generateImageKey (sanitizeSlug (baseNameNoExt n))
            (generateContentHash buf) "sm"]⟩ := by
      rw [processImageAttempt, hread]
      dsimp only
      rw [hvar, hblur]
      dsimp only
      simp only [uploadVariantsLoop]
      rw [uploadToRailway_ok _ _ _ _ _ hci h0]
      dsimp only
      rw [uploadToRailway_fail _ _ _ _ _ hci hmem]
      rfl
    obtain ⟨hc1, hc2, hc3⟩ := processImage_error_run env w p n _ _ _ hatt rfl
      hex
    rw [if_pos (by simp)] at hc3
    refine ⟨hc1, hc2, ?_⟩
    intro j hj hd
    have hj0 : j = 0 := by omega
    subst hj0
    simp only [List.getD_cons_zero] at hd ⊢
    rw [hc3]
    exact deleteMultipleFromRailway_absent env _ _ _ hci hd (by simp)
      (generateImageKey_ne_empty _ _ _)
  · -- the third upload fails: the first two keys are rolled back
    simp only [List.getD_cons_zero, List.getD_cons_succ] at hmem hprev ⊢
    have h0 := hprev 0 (by omega)
    have h1 := hprev 1 (by omega)
    simp only [List.getD_cons_zero, List.getD_cons_succ] at h0 h1
    have hatt : processImageAttempt env w p n =
        .error ⟨.putFailed (generateImageKey (sanitizeSlug (baseNameNoExt n))
            (generateContentHash buf) "lg"),
          ⟨w.files, upsertA (upsertA w.objects
            (generateImageKey (sanitizeSlug (baseNameNoExt n))
              (generateContentHash buf) "sm")
            (sharpResizeWebp buf srcW srcH 400).buffer)
            (generateImageKey (sanitizeSlug (baseNameNoExt n))
              (generateContentHash buf) "md")
            (sharpResizeWebp buf srcW srcH 800).buffer⟩,
          [generateImageKey (sanitizeSlug (baseNameNoExt n))
            (generateContentHash buf) "sm",
           generateImageKey (sanitizeSlug (baseNameNoExt n))
            (generateContentHash buf) "md"]⟩ := by
      rw [processImageAttempt, hread]
      dsimp only
      rw [hvar, hblur]
      dsimp only
      simp only [uploadVariantsLoop]
      rw [uploadToRailway_ok _ _ _ _ _ hci h0]
      dsimp only
      rw [uploadToRailway_ok _ _ _ _ _ hci h1]
      dsimp only
      rw [uploadToRailway_fail _ _ _ _ _ hci hmem]
      rfl
    obtain ⟨hc1, hc2, hc3⟩ := processImage_error_run env w p n _ _ _ hatt rfl
      hex
    rw [if_pos (by simp)] at hc3
    refine ⟨hc1, hc2, ?_⟩
    intro j hj hd
    interval_cases j
    · simp only [List.getD_cons_zero] at hd ⊢
      rw [hc3]
      exact deleteMultipleFromRailway_absent env _ _ _ hci hd (by simp)
        (generateImageKey_ne_empty _ _ _)
    · simp only [List.getD_cons_zero, List.getD_cons_succ] at hd ⊢
      rw [hc3]
      exact deleteMultipleFromRailway_absent env _ _ _ hci hd (by simp)
        (generateImageKey_ne_empty _ _ _)

/-- Witness for C1: the `md` upload (second of three) fails; the call
surfaces the put error, the temp file is gone, and the rolled-back `sm`
key is absent from the store. -/
theorem c1_rollback_witness :
    (processImageForRailway
        ⟨["images/gallery/kitchen-remodel-3-89e74e64-md.webp"], [], false,
          [([7], (1000, 600))]⟩
        ⟨[("uploads/img", [7])], []⟩ "uploads/img"
        "Kitchen Remodel #3.JPG").2 =
      .error (.putFailed ((imageVariantKeys "Kitchen Remodel #3.JPG"
        [7]).getD 1 "")) ∧
    fileExistsW (processImageForRailway
        ⟨["images/gallery/kitchen-remodel-3-89e74e64-md.webp"], [], false,
          [([7], (1000, 600))]⟩
        ⟨[("uploads/img", [7])], []⟩ "uploads/img"
        "Kitchen Remodel #3.JPG").1 "uploads/img" = false ∧
    ∀ j, j < 1 →
      (imageVariantKeys "Kitchen Remodel #3.JPG" [7]).getD j "" ∉
        Env.deleteFailKeys
          ⟨["images/gallery/kitchen-remodel-3-89e74e64-md.webp"], [], false,
            [([7], (1000, 600))]⟩ →
      storedObject (processImageForRailway
          ⟨["images/gallery/kitchen-remodel-3-89e74e64-md.webp"], [], false,
            [([7], (1000, 600))]⟩
          ⟨[("uploads/img", [7])], []⟩ "uploads/img"
          "Kitchen Remodel #3.JPG").1
        ((imageVariantKeys "Kitchen Remodel #3.JPG" [7]).getD j "") = none :=
  c1_rollback_on_put_failure
    ⟨["images/gallery/kitchen-remodel-3-89e74e64-md.webp"], [], false,
      [([7], (1000, 600))]⟩
    ⟨[("uploads/img", [7])], []⟩ "uploads/img" "Kitchen Remodel #3.JPG"
    [7] 1000 600 1 (by omega) (by decide) (by decide) rfl (by decide)
    (fun j hj => by
      have h0 : j = 0 := by omega
      subst h0
      decide)

/-- C2, counterexample.  Ingesting video bytes `[0]` with thumbnail bytes
`[1]`: the video key is built from the hash of the *video* bytes
(`93b885ad`), while the three thumbnail keys are built from the hash of the
thumbnail bytes (`55a54008`) — the keys do not all reference one hash
derived from the thumbnail, and the result's `contentHash` is the video
hash. -/
theorem c2_counterexample :
    ((processVideoForRailway ⟨[], [], false, [([1], (2000, 1500))]⟩
        ⟨[("uploads/v", [0]), ("uploads/t", [1])], []⟩
        "uploads/v" "v.mp4" (some "uploads/t")).2.map
          (fun r => (r.videoKey, r.thumbnailKeys, r.contentHash))) =
      .ok ("videos/gallery/v-93b885ad.mp4",
        some ⟨"images/gallery/v-thumb-55a54008-sm.webp",
              "images/gallery/v-thumb-55a54008-md.webp",
              "images/gallery/v-thumb-55a54008-lg.webp"⟩,
        "93b885ad") ∧
    generateContentHash [0] = "93b885ad" ∧
    generateContentHash [1] = "55a54008" ∧
    "videos/gallery/v-93b885ad.mp4" ≠
      generateVideoKey "v" (generateContentHash [1]) := by
  refine ⟨rfl, by decide, by decide, by decide⟩

/-- C2, amended: a successful video-with-thumbnail ingestion returns one
video key and three thumbnail variant keys, where the video key references
the hash of the *video* bytes, the thumbnail keys reference the hash of
the *thumbnail* bytes under the `-thumb` slug, and the result's
`contentHash` field is the video hash. -/
theorem c2_video_thumbnail_hashes (env : Env) (w : World)
    (p tp n : String) (videoBuf thumbBuf : List Nat) (tw th : Nat)
    (hread : readFileW w p = some videoBuf)
    (hreadT : readFileW w tp = some thumbBuf)
    (hpt : p ≠ tp)
    (hdecT : decodeMeta env thumbBuf = some (tw, th))
    (hci : env.clientInitFails = false)
    (hv : generateVideoKey (sanitizeSlug (baseNameNoExt n))
      (generateContentHash videoBuf) ∉ env.putFailKeys)
    (h0 : generateImageKey (sanitizeSlug (baseNameNoExt n) ++ "-thumb")
      (generateContentHash thumbBuf) "sm" ∉ env.putFailKeys)
    (h1 : generateImageKey (sanitizeSlug (baseNameNoExt n) ++ "-thumb")
      (generateContentHash thumbBuf) "md" ∉ env.putFailKeys)
    (h2 : generateImageKey (sanitizeSlug (baseNameNoExt n) ++ "-thumb")
      (generateContentHash thumbBuf) "lg" ∉ env.putFailKeys) :
    (processVideoForRailway env w p n (some tp)).2 =
      .ok ⟨n,
        generateVideoKey (sanitizeSlug (baseNameNoExt n))
          (generateContentHash videoBuf),
        some ⟨generateImageKey (sanitizeSlug (baseNameNoExt n) ++ "-thumb")
            (generateContentHash thumbBuf) "sm",
          generateImageKey (sanitizeSlug (baseNameNoExt n) ++ "-thumb")
            (generateContentHash thumbBuf) "md",
          generateImageKey (sanitizeSlug (baseNameNoExt n) ++ "-thumb")
            (generateContentHash thumbBuf) "lg"⟩,
        generateContentHash videoBuf,
        some "data:image/webp;base64,"⟩ := by
  have hvarT : generateVariants env thumbBuf =
      .ok [("sm", sharpResizeWebp thumbBuf tw th 400),
           ("md", sharpResizeWebp thumbBuf tw th 800),
           ("lg", sharpResizeWebp thumbBuf tw th 1600)] := by
    rw [generateVariants, hdecT]
    rfl
  have hblurT : generateBlurPlaceholder env thumbBuf =
      .ok "data:image/webp;base64," := by
    rw [generateBlurPlaceholder, hdecT]
  have hatt : processVideoAttempt env w p n (some tp) =
      .ok (⟨removeA (removeA w.files tp) p,
        upsertA (upsertA (upsertA (upsertA w.objects
          (generateVideoKey (sanitizeSlug (baseNameNoExt n))
            (generateContentHash videoBuf)) videoBuf)
          (generateImageKey (sanitizeSlug (baseNameNoExt n) ++ "-thumb")
            (generateContentHash thumbBuf) "sm")
          (sharpResizeWebp thumbBuf tw th 400).buffer)
          (generateImageKey (sanitizeSlug (baseNameNoExt n) ++ "-thumb")
            (generateContentHash thumbBuf) "md")
          (sharpResizeWebp thumbBuf tw th 800).buffer)
          (generateImageKey (sanitizeSlug (baseNameNoExt n) ++ "-thumb")
            (generateContentHash thumbBuf) "lg")
          (sharpResizeWebp thumbBuf tw th 1600).buffer⟩, ⟨n,
        generateVideoKey (sanitizeSlug (baseNameNoExt n))
          (generateContentHash videoBuf),
        some ⟨generateImageKey (sanitizeSlug (baseNameNoExt n) ++ "-thumb")
            (generateContentHash thumbBuf) "sm",
          generateImageKey (sanitizeSlug (baseNameNoExt n) ++ "-thumb")
            (generateContentHash thumbBuf) "md",
          generateImageKey (sanitizeSlug (baseNameNoExt n) ++ "-thumb")
            (generateContentHash thumbBuf) "lg"⟩,
        generateContentHash videoBuf,
        some "data:image/webp;base64,"⟩) := by
    rw [processVideoAttempt, hread]
    dsimp only
    rw [uploadToRailway_ok _ _ _ _ _ hci hv]
    dsimp only
    rw [show readFileW ⟨w.files, upsertA w.objects
        (generateVideoKey (sanitizeSlug (baseNameNoExt n))
          (generateContentHash videoBuf)) videoBuf⟩ tp = some thumbBuf
      from hreadT]
    dsimp only
    rw [hvarT, hblurT]
    dsimp only
    simp only [uploadVariantsLoop]
    rw [uploadToRailway_ok _ _ _ _ _ hci h0]
    dsimp only
    rw [uploadToRailway_ok _ _ _ _ _ hci h1]
    dsimp only
    rw [uploadToRailway_ok _ _ _ _ _ hci h2]
    dsimp only
    rw [if_pos (show fileExistsW _ tp = true from by
      rw [fileExistsW]
      dsimp only
      rw [show lookupA w.files tp = some thumbBuf from hreadT]
      rfl)]
    dsimp only [unlinkW]
    rw [if_pos (show fileExistsW _ p = true from by
      rw [fileExistsW]
      dsimp only
      rw [lookupA_removeA_ne w.files p tp hpt]
      rw [show lookupA w.files p = some videoBuf from hread]
      rfl)]
    rfl
  rw [processVideoForRailway, hatt]

/-- Witness for the amended C2 at video bytes `[0]`, thumbnail bytes `[1]`.
-/
theorem c2_video_thumbnail_hashes_witness :
    (processVideoForRailway ⟨[], [], false, [([1], (2000, 1500))]⟩
        ⟨[("uploads/v", [0]), ("uploads/t", [1])], []⟩
        "uploads/v" "v.mp4" (some "uploads/t")).2 =
      .ok ⟨"v.mp4",
        generateVideoKey (sanitizeSlug (baseNameNoExt "v.mp4"))
          (generateContentHash [0]),
        some ⟨generateImageKey (sanitizeSlug (baseNameNoExt "v.mp4") ++
            "-thumb") (generateContentHash [1]) "sm",
          generateImageKey (sanitizeSlug (baseNameNoExt "v.mp4") ++ "-thumb")
            (generateContentHash [1]) "md",
          generateImageKey (sanitizeSlug (baseNameNoExt "v.mp4") ++ "-thumb")
            (generateContentHash [1]) "lg"⟩,
        generateContentHash [0],
        some "data:image/webp;base64,"⟩ :=
  c2_video_thumbnail_hashes ⟨[], [], false, [([1], (2000, 1500))]⟩
    ⟨[("uploads/v", [0]), ("uploads/t", [1])], []⟩
    "uploads/v" "uploads/t" "v.mp4" [0] [1] 2000 1500
    (by decide) (by decide) (by decide) (by decide) rfl
    (by decide) (by decide) (by decide) (by decide)
